import Mathlib

/-!
Shallow embedding of `wandb/data_types/_media.py` (class `Media`): the
content-addressed binding of media files to runs and artifacts.

Modelling conventions:
  * The POSIX filesystem is a finite association list from absolute path to
    byte contents (`FS`); directories are implicit (`mkdir_exists_ok` is a
    no-op in the model).
  * Python attributes that may be *unset* (declared only as annotations and
    first assigned inside `_set_file`) are `Option`-valued with `none`
    meaning "attribute absent" (`hasattr` is `Option.isSome`).
  * `hashlib.sha256(...).hexdigest()` is an abstract parameter
    `hash : List Nat → String`: the embedding does not re-implement SHA-256,
    it only records that the digest is a function of the file's bytes.
  * Exceptions are modelled by an `err : Option String` component carrying
    the exception kind; Python mutates `self` before some raises, so the
    mutated object is returned alongside the error.
  * Run identity (Python `is`) is modelled by a numeric run id.
-/

/-! ### Path helpers: faithful models of the `os.path` (posixpath) functions
used by the source, operating on `/`-separated paths. -/

/-- Characters of the portion of `p` after the last `/`
(`os.path.basename`, posix). -/
def basenameAux : List Char → List Char → List Char
  | [], acc => acc.reverse
  | c :: rest, acc =>
    if c = '/' then basenameAux rest [] else basenameAux rest (c :: acc)

/-- `os.path.basename` for posix paths. -/
def basename (p : String) : String := String.mk (basenameAux p.toList [])

/-- Index of the last `'.'` in a character list, if any. -/
def lastDotIdx : List Char → Option Nat
  | [] => none
  | c :: cs =>
    match lastDotIdx cs with
    | some i => some (i + 1)
    | none => if c = '.' then some 0 else none

/-- The extension component of `os.path.splitext name` for a `name` without
path separators: the substring from the last dot on, unless every character
before that dot is itself a dot (Python skips leading dots). -/
def splitextExt (name : String) : String :=
  let cs := name.toList
  match lastDotIdx cs with
  | none => ""
  | some i =>
    if (cs.take i).any (fun c => c ≠ '.') then String.mk (cs.drop i) else ""

/-- `os.path.join a b` for posix paths (two-argument form; the source's
three-argument call is the left fold of this). -/
def joinPath (a b : String) : String :=
  if b.toList.head? = some '/' then b
  else if a = "" ∨ a.toList.getLast? = some '/' then a ++ b
  else a ++ "/" ++ b

/-- Split a path on `/` keeping only non-empty components, as
`[x for x in p.split(sep) if x]` inside `posixpath.relpath`. -/
def pathComponentsAux : List Char → List Char → List String
  | [], acc => [String.mk acc.reverse]
  | c :: rest, acc =>
    if c = '/' then String.mk acc.reverse :: pathComponentsAux rest []
    else pathComponentsAux rest (c :: acc)

/-- Non-empty `/`-separated components of a path. -/
def pathComponents (p : String) : List String :=
  (pathComponentsAux p.toList []).filter (fun s => s ≠ "")

/-- Length of the longest common prefix of two component lists
(`genericpath.commonprefix` on lists). -/
def commonLen : List String → List String → Nat
  | a :: as, b :: bs => if a = b then commonLen as bs + 1 else 0
  | _, _ => 0

/-- `os.path.relpath path start` for absolute, already-normalised posix
paths (the source only applies it to paths built by `os.path.join` from the
run directory, which are of this shape). -/
def relpath (path start : String) : String :=
  let pl := pathComponents path
  let sl := pathComponents start
  let i := commonLen sl pl
  let rel := List.replicate (sl.length - i) ".." ++ pl.drop i
  if rel = [] then "." else String.intercalate "/" rel

/-- Modelled from the spec: `wandb.util.to_forward_slash_path` (the module is
not part of the sources) — "forward-slash normalized": every backslash
becomes a forward slash. -/
def to_forward_slash_path (p : String) : String :=
  String.mk (p.toList.map (fun c => if c = '\\' then '/' else c))

/-- `str.endswith` (Python). -/
def strEndsWith (s suf : String) : Bool :=
  let a := s.toList
  let b := suf.toList
  a.drop (a.length - b.length) == b

/-- `str.startswith` (Python). -/
def strStartsWith (s pre : String) : Bool :=
  s.toList.take pre.toList.length == pre.toList

/-- First `n` characters of a string (`s[:n]`). -/
def strTake (s : String) (n : Nat) : String := String.mk (s.toList.take n)

/-! ### Filesystem model -/

/-- A filesystem: association list from path to byte contents. -/
abbrev FS := List (String × List Nat)

/-- Read a file's bytes (`open(path, "rb").read()`); `none` is
`FileNotFoundError`. -/
def fsRead (fs : FS) (p : String) : Option (List Nat) :=
  match fs with
  | [] => none
  | (q, b) :: rest => if q = p then some b else fsRead rest p

/-- Remove a file. -/
def fsRemove (fs : FS) (p : String) : FS :=
  match fs with
  | [] => []
  | (q, b) :: rest =>
    if q = p then fsRemove rest p else (q, b) :: fsRemove rest p

/-- Create or overwrite a file. -/
def fsWrite (fs : FS) (p : String) (b : List Nat) : FS :=
  (p, b) :: fsRemove fs p

/-! ### Data model -/

/-- A run, exposing its directory (`run.dir`); `id` models Python object
identity (`is`). -/
structure Run where
  id : Nat
  dir : String

/-- Back-reference to a source artifact (`self._artifact_source`):
`defaultRoot` is `artifact._default_root()` and `refUrlOf name` is
`artifact.get_path(name).ref_url()` (modelled from the spec; the artifact
module is not part of the sources). -/
structure ArtifactSource where
  defaultRoot : String
  refUrlOf : String → String

/-- The state of one `Media` object. `kind` models the concrete Python
class (`self.__class__`), `logType` models the class attribute `_log_type`,
and `mediaSubdir` the per-kind constant `get_media_subdir()`. The
`artifactEntryUrl` fields model `_get_artifact_entry_ref_url()` /
`_get_artifact_entry_latest_ref_url()` from the (external) `WBValue` base.
`isAudio` marks the `Audio` subclass used by the reference branch of
`to_json`. -/
structure Media where
  kind : String
  logType : String
  mediaSubdir : String
  path : Option String := none
  run : Option Nat := none
  caption : Option String := none
  is_tmp : Option Bool := none
  extension : Option String := none
  sha256 : Option String := none
  size : Option Nat := none
  artifactSource : Option ArtifactSource := none
  artifactEntryUrl : Option String := none
  artifactEntryLatestUrl : Option String := none
  isAudio : Bool := false

/-- `Media.file_is_set`. -/
def file_is_set (m : Media) : Bool := m.path.isSome && m.sha256.isSome

/-- `Media.is_bound`. -/
def is_bound (m : Media) : Bool := m.run.isSome

/-- Result of `_set_file`: the (possibly partially mutated) object, the
filesystem (returned to state that the call performs no file movement), and
the raised exception if any. -/
structure SetFileOut where
  media : Media
  fs : FS
  err : Option String

/-- `Media._set_file(path, is_tmp, extension)`. Mirrors the source's
statement order: `_path`, `_is_tmp`, `_extension` are assigned *before* the
extension check, so a failing call still mutates them; `_sha256` and
`_size` are only assigned after the file is read. -/
def _set_file (hash : List Nat → String) (fs : FS) (m : Media)
    (path : String) (is_tmp : Bool) (extension : Option String) :
    SetFileOut :=
  let m1 : Media :=
    { m with path := some path, is_tmp := some is_tmp, extension := extension }
  match extension with
  | some e =>
    if strEndsWith path e = false then
      ⟨m1, fs, some "ValueError: extension must occur at the end of path"⟩
    else
      match fsRead fs path with
      | none => ⟨m1, fs, some "FileNotFoundError"⟩
      | some bytes =>
        ⟨{ m1 with sha256 := some (hash bytes), size := some bytes.length },
          fs, none⟩
  | none =>
    match fsRead fs path with
    | none => ⟨m1, fs, some "FileNotFoundError"⟩
    | some bytes =>
      ⟨{ m1 with sha256 := some (hash bytes), size := some bytes.length },
        fs, none⟩

/-- `Media.captions` returns either the list of every item's caption or
Python `False`; indexing `media_items[0]` on an empty sequence raises
`IndexError`, modelled by `none`. -/
inductive CaptionsOut where
  | caps : List (Option String) → CaptionsOut
  | noCaps : CaptionsOut
deriving DecidableEq

/-- `Media.captions(media_items)` (static). -/
def captions (media_items : List Media) : Option CaptionsOut :=
  match media_items with
  | [] => none
  | m :: rest =>
    if m.caption.isSome then
      some (.caps ((m :: rest).map (fun x => x.caption)))
    else
      some .noCaps

/-- `Media.__eq__`: same concrete class, both `_sha256` attributes present
(`hasattr`), and equal digests. -/
def mediaEq (a b : Media) : Bool :=
  a.kind == b.kind && a.sha256.isSome && b.sha256.isSome &&
    a.sha256 == b.sha256

/-! ### Run binding -/

/-- `Media._wb_filename(key, step, id, extension)`; `str()` conversion of
the `Union[str, int]` arguments is done by the caller of the model. -/
def _wb_filename (key step id ext : String) : String :=
  key ++ "_" ++ step ++ "_" ++ id ++ ext

/-- Result of `bind_to_run`: the object, the filesystem, the relative paths
passed to `_datatypes_callback` (run notification), and the raised
exception if any. -/
structure BindOut where
  media : Media
  fs : FS
  notified : List String
  err : Option String

/-- `Media.bind_to_run(run, key, step, id_)`. `sysPlatform` models
`platform.system()` and `winValid` models
`wandb.util.check_windows_valid_filename` (external module). Mirrors the
source's order: the `file_is_set` assertion, the Windows filename check,
the `run is None` check, then extension/id resolution, destination
derivation, and the move (when `_is_tmp` is truthy) or copy. Directory
creation (`mkdir_exists_ok`) is a no-op in the model. `shutil.copy`
raises `SameFileError` when source and destination are the same file
(path equality in this model), before `_path` is updated and before the
callback; `shutil.move` of a file onto its own path is `os.rename` onto
itself, a successful no-op. -/
def bind_to_run (sysPlatform : String) (winValid : String → Bool) (fs : FS)
    (m : Media) (run : Option Run) (key step : String)
    (id_ : Option String) : BindOut :=
  match m.path, m.sha256 with
  | some p, some sha =>
    if sysPlatform = "Windows" ∧ winValid key = false then
      ⟨m, fs, [], some "ValueError: invalid filename"⟩
    else
      match run with
      | none => ⟨m, fs, [], some "TypeError: run must not be None"⟩
      | some r =>
        let m1 : Media := { m with run := some r.id }
        let extension :=
          match m.extension with
          | none => splitextExt (basename p)
          | some e => e
        let idr :=
          match id_ with
          | none => strTake sha 20
          | some i => i
        let file_path := _wb_filename key step idr extension
        let media_path := joinPath m1.mediaSubdir file_path
        let new_path := joinPath r.dir media_path
        match fsRead fs p with
        | none => ⟨m1, fs, [], some "FileNotFoundError"⟩
        | some bytes =>
          if m1.is_tmp = some true then
            ⟨{ m1 with path := some new_path, is_tmp := some false },
              fsWrite (fsRemove fs p) new_path bytes, [media_path], none⟩
          else
            if p = new_path then
              ⟨m1, fs, [], some "shutil.SameFileError"⟩
            else
              ⟨{ m1 with path := some new_path },
                fsWrite fs new_path bytes, [media_path], none⟩
  | _, _ =>
    ⟨m, fs, [], some "AssertionError: bind_to_run called before _set_file"⟩

/-! ### Serialisation -/

/-- A JSON value as stored in the descriptor dict. -/
inductive JVal where
  | str : String → JVal
  | num : Nat → JVal
  | nullv : JVal
deriving DecidableEq

/-- JSON encoding of an optional string field. -/
def optStr : Option String → JVal
  | some s => .str s
  | none => .nullv

/-- JSON encoding of an optional numeric field. -/
def optNat : Option Nat → JVal
  | some n => .num n
  | none => .nullv

/-- Dict lookup in a descriptor. -/
def lookupJ (l : List (String × JVal)) (k : String) : Option JVal :=
  (l.find? (fun e => e.fst == k)).map (fun e => e.snd)

/-- `Media.to_json(run)` for a `wandb.Run` argument: requires the object to
be bound to exactly this run, then produces the file descriptor; the
optional `artifact_path` / `_latest_artifact_path` passthrough fields are
appended when present. -/
def to_json_run (m : Media) (r : Run) : Except String (List (String × JVal)) :=
  if is_bound m = false then
    .error "RuntimeError: must be bound to a run with bind_to_run"
  else if m.run ≠ some r.id then
    .error "AssertionError: media files across runs are unsupported"
  else
    match m.path with
    | none => .error "AssertionError: path is not a str"
    | some p =>
      let base : List (String × JVal) :=
        [("_type", .str "file"),
         ("path", .str (to_forward_slash_path (relpath p r.dir))),
         ("sha256", optStr m.sha256),
         ("size", optNat m.size)]
      let j1 :=
        match m.artifactEntryUrl with
        | some u => base ++ [("artifact_path", JVal.str u)]
        | none => base
      let j2 :=
        match m.artifactEntryLatestUrl with
        | some u => j1 ++ [("_latest_artifact_path", JVal.str u)]
        | none => j1
      .ok j2

/-- The state of a `wandb.Artifact` as seen by `to_json`. Modelled from the
spec (the artifact module is not part of the sources): `added` is the
dedup table behind `get_added_local_path_name` (local path → name),
`files` records `add_file` calls, `refs` records `add_reference` calls. -/
structure Artifact where
  added : List (String × String) := []
  files : List (String × String × Bool) := []
  refs : List (String × String) := []
deriving DecidableEq

/-- Modelled from the spec: `Artifact.get_added_local_path_name(path)` —
"dedup lookup": the name this local path was previously added under. -/
def get_added_local_path_name (a : Artifact) (p : String) : Option String :=
  (a.added.find? (fun e => e.fst == p)).map (fun e => e.snd)

/-- Modelled from the spec: `Artifact.add_file(path, name, is_tmp)` records
the file, registers the path in the dedup table, and returns the entry's
(unchanged) name. -/
def add_file (a : Artifact) (p name : String) (tmp : Bool) :
    String × Artifact :=
  (name,
    { a with
      added := a.added ++ [(p, name)],
      files := a.files ++ [(p, name, tmp)] })

/-- Modelled from the spec: `Artifact.add_reference(url, name)`. -/
def add_reference (a : Artifact) (url name : String) : Artifact :=
  { a with refs := a.refs ++ [(url, name)] }

/-- `Media.to_json(artifact)` for a `wandb.Artifact` argument. `pathIsRef`
models `Audio.path_is_reference` (external module: a URI-scheme test used
only by the `Audio` subclass). Name resolution follows the source: dedup
by path first; otherwise derive `<subdir>/<basename>` for staged files or
`<subdir>/<sha256[:20]>/<basename>` for external files; then either add a
reference relative to the source artifact, an `Audio` URI reference, or
the file itself. Returns the descriptor and the mutated artifact. -/
def to_json_artifact (pathIsRef : String → Bool) (m : Media)
    (art : Artifact) : List (String × JVal) × Artifact :=
  match m.path, m.sha256 with
  | some p, some sha =>
    match get_added_local_path_name art p with
    | some name =>
      ([("path", .str name), ("sha256", .str sha),
        ("_type", .str m.logType)], art)
    | none =>
      let name0 :=
        if m.is_tmp = some true then
          joinPath m.mediaSubdir (basename p)
        else
          joinPath (joinPath m.mediaSubdir (strTake sha 20)) (basename p)
      match m.artifactSource with
      | some src =>
        let name1 :=
          if strStartsWith p src.defaultRoot then
            String.mk
              (((p.toList.drop src.defaultRoot.toList.length)).dropWhile
                (fun c => c = '/'))
          else name0
        let art1 := add_reference art (src.refUrlOf name1) name1
        ([("path", .str name1), ("sha256", .str sha),
          ("_type", .str m.logType)], art1)
      | none =>
        if m.isAudio && pathIsRef p then
          let art1 := add_reference art p name0
          ([("path", .str name0), ("sha256", .str sha),
            ("_type", .str m.logType)], art1)
        else
          let fa := add_file art p name0 (m.is_tmp = some true)
          ([("path", .str fa.fst), ("sha256", .str sha),
            ("_type", .str m.logType)], fa.snd)
  | _, _ => ([("_type", .str m.logType)], art)

/-! ### Concrete fixtures used by witnesses and counterexamples -/

/-- Hex digit for a value below 16. -/
def hexChar (n : Nat) : Char :=
  if n < 10 then Char.ofNat (48 + n) else Char.ofNat (87 + n)

/-- A concrete stand-in for the abstract digest parameter: 64 hex
characters determined by the file's bytes (used only to instantiate
witnesses; nothing below depends on its internals). -/
def demoHash (bs : List Nat) : String :=
  String.mk (((bs ++ List.replicate 64 0).take 64).map
    (fun b => hexChar (b % 16)))

/-- A concrete media kind (an image-like subclass). -/
def demoMedia : Media :=
  { kind := "Image", logType := "image-file", mediaSubdir := "media/images" }

/-- Same kind, different caption. -/
def demoMediaCap : Media := { demoMedia with caption := some "a caption" }

/-- `check_windows_valid_filename` stand-in accepting everything. -/
def wvAll : String → Bool := fun _ => true

/-- `Audio.path_is_reference` stand-in rejecting everything. -/
def prNone : String → Bool := fun _ => false

/-- A staging filesystem with one three-byte file. -/
def demoFS : FS := [("/stage/a.png", [1, 2, 3])]

/-- The fixture file attached as a non-temporary media object. -/
def demoAttached : Media :=
  (_set_file demoHash demoFS demoMedia "/stage/a.png" false none).media

/-- Binding the fixture to run 1. -/
def demoBind1 : BindOut :=
  bind_to_run "Linux" wvAll demoFS demoAttached (some ⟨1, "/r1"⟩) "k" "0" none

/-- Re-binding the already-bound fixture to the distinct run 2. -/
def demoBind2 : BindOut :=
  bind_to_run "Linux" wvAll demoBind1.fs demoBind1.media (some ⟨2, "/r2"⟩)
    "k" "0" none

/-- Two files sharing the basename `img.png` with different bytes. -/
def demoFS7 : FS := [("/data/img.png", [1]), ("/other/img.png", [2])]

/-- First same-basename file, attached non-temporary. -/
def demoAtt7a : Media :=
  (_set_file demoHash demoFS7 demoMedia "/data/img.png" false none).media

/-- Second same-basename file, attached non-temporary. -/
def demoAtt7b : Media :=
  (_set_file demoHash demoFS7 demoMedia "/other/img.png" false none).media

/-- A source artifact back-reference rooted at `/artroot`. -/
def demoSrc : ArtifactSource :=
  ⟨"/artroot", fun n => "wandb-artifact://src/" ++ n⟩

/-- An attached, non-temporary object whose content originated in another
artifact (takes the reference branch of `to_json`). -/
def demoMediaSrc : Media :=
  { demoMedia with
      path := some "/artroot/img.png"
      is_tmp := some false
      sha256 := some (demoHash [9])
      size := some 1
      artifactSource := some demoSrc }

/-! ### Helper lemmas -/

/-- Reading a just-written file returns the written bytes. -/
theorem fsRead_fsWrite_same (fs : FS) (p : String) (b : List Nat) :
    fsRead (fsWrite fs p b) p = some b := by
  simp [fsWrite, fsRead]

/-- `fsRemove` removes exactly the named file. -/
theorem fsRead_fsRemove (fs : FS) (p q : String) :
    fsRead (fsRemove fs p) q = if q = p then none else fsRead fs q := by
  induction fs with
  | nil => by_cases h : q = p <;> simp [fsRemove, fsRead, h]
  | cons e rest ih =>
    obtain ⟨r, b⟩ := e
    by_cases h1 : r = p <;> by_cases h2 : q = p <;>
      by_cases h3 : r = q <;>
        simp_all [fsRemove, fsRead, h1, h2, h3]

/-- Writing one file leaves every other file unchanged. -/
theorem fsRead_fsWrite_ne (fs : FS) (p q : String) (b : List Nat)
    (h : q ≠ p) : fsRead (fsWrite fs p b) q = fsRead fs q := by
  have h' : p ≠ q := fun hc => h hc.symm
  simp [fsWrite, fsRead, h', fsRead_fsRemove, h]

/-- Successful `_set_file`: the resulting object in full. -/
theorem set_file_ok (hash : List Nat → String) (fs : FS) (m : Media)
    (p : String) (t : Bool) (e : Option String) (bytes : List Nat)
    (hread : fsRead fs p = some bytes)
    (hext : e = none ∨ ∃ s, e = some s ∧ strEndsWith p s = true) :
    _set_file hash fs m p t e =
      ⟨{ m with
          path := some p
          is_tmp := some t
          extension := e
          sha256 := some (hash bytes)
          size := some bytes.length },
        fs, none⟩ := by
  rcases hext with he | ⟨s, he, hs⟩
  · subst he; simp [_set_file, hread]
  · subst he; simp [_set_file, hread, hs]

/-- A character absent from a list is not its last element. -/
theorem getLast?_ne_of_not_mem {c : Char} :
    ∀ {l : List Char}, c ∉ l → l.getLast? ≠ some c := by
  intro l
  induction l with
  | nil => intro _ h; simp [List.getLast?] at h
  | cons a t ih =>
    intro hmem h
    cases t with
    | nil =>
      simp [List.getLast?] at h
      exact hmem (h ▸ List.mem_singleton_self a)
    | cons b u =>
      rw [List.getLast?_cons_cons] at h
      exact ih (fun hc => hmem (List.mem_cons_of_mem a hc)) h

/-- A character absent from a list is not its head. -/
theorem head?_ne_of_not_mem {c : Char} {l : List Char} (h : c ∉ l) :
    l.head? ≠ some c := by
  cases l with
  | nil => simp
  | cons a t =>
    intro hc
    simp [List.head?] at hc
    exact h (hc ▸ List.mem_cons_self a t)

/-- `joinPath` in the ordinary case is slash-separated concatenation. -/
theorem joinPath_eq_append (a b : String) (ha : a ≠ "")
    (ha2 : a.data.getLast? ≠ some '/') (hb : b.data.head? ≠ some '/') :
    joinPath a b = a ++ "/" ++ b := by
  have hor : ¬(a = "" ∨ a.data.getLast? = some '/') := by
    rintro (h | h)
    · exact ha h
    · exact ha2 h
  simp only [joinPath, String.toList]
  rw [if_neg hb, if_neg hor]

/-- `find?` skips over a prefix in which nothing matches. -/
theorem find?_append_none {α} (f : α → Bool) (l1 l2 : List α)
    (h : l1.find? f = none) : (l1 ++ l2).find? f = l2.find? f := by
  induction l1 with
  | nil => simp
  | cons a t ih =>
    by_cases hf : f a = true
    · rw [List.find?_cons_of_pos _ hf] at h; exact absurd h (by simp)
    · have hf' : ¬ f a = true := hf
      rw [List.find?_cons_of_neg _ hf'] at h
      rw [List.cons_append, List.find?_cons_of_neg _ hf']
      exact ih h

/-- The entry returned by `add_file` carries the requested name. -/
theorem add_file_fst (a : Artifact) (p name : String) (tmp : Bool) :
    (add_file a p name tmp).1 = name := rfl

/-- A freshly `add_file`-ed path is found by the dedup lookup under the
name it was given. -/
theorem get_added_after_add_file (a : Artifact) (p name : String)
    (tmp : Bool) (h : get_added_local_path_name a p = none) :
    get_added_local_path_name (add_file a p name tmp).2 p = some name := by
  unfold get_added_local_path_name at h ⊢
  have hfind : a.added.find? (fun e => e.fst == p) = none := by
    cases hf : a.added.find? (fun e => e.fst == p) with
    | none => rfl
    | some v => rw [hf] at h; simp at h
  simp only [add_file]
  rw [find?_append_none _ _ _ hfind]
  simp [List.find?]

/-! ### Claim theorems -/

/-- C5: `_set_file` on a readable file sets `contentHash` to the digest of
the file's full byte contents and `size` to its byte length, moves no
file, and attaching the same bytes (from any path, into any object) always
yields the same `contentHash`. -/
theorem C5_attach_hashes_content (hash : List Nat → String)
    (fs fs2 : FS) (m m2 : Media) (p p2 : String) (t t2 : Bool)
    (e e2 : Option String) (bytes : List Nat)
    (hread : fsRead fs p = some bytes)
    (hext : e = none ∨ ∃ s, e = some s ∧ strEndsWith p s = true)
    (hread2 : fsRead fs2 p2 = some bytes)
    (hext2 : e2 = none ∨ ∃ s, e2 = some s ∧ strEndsWith p2 s = true) :
    (_set_file hash fs m p t e).err = none ∧
    (_set_file hash fs m p t e).media.sha256 = some (hash bytes) ∧
    (_set_file hash fs m p t e).media.size = some bytes.length ∧
    (_set_file hash fs m p t e).fs = fs ∧
    (_set_file hash fs2 m2 p2 t2 e2).media.sha256 =
      (_set_file hash fs m p t e).media.sha256 := by
  rw [set_file_ok hash fs m p t e bytes hread hext,
    set_file_ok hash fs2 m2 p2 t2 e2 bytes hread2 hext2]
  simp

/-- Witness for C5 at a concrete filesystem: two attaches of the same two
bytes from different paths agree on the digest. -/
theorem C5_attach_hashes_content_witness :
    (_set_file demoHash [("a", [1, 2])] demoMedia "a" false none).err =
      none ∧
    (_set_file demoHash [("a", [1, 2])] demoMedia "a" false none).media.sha256
      = some (demoHash [1, 2]) ∧
    (_set_file demoHash [("a", [1, 2])] demoMedia "a" false none).media.size
      = some (List.length [1, 2]) ∧
    (_set_file demoHash [("a", [1, 2])] demoMedia "a" false none).fs =
      [("a", [1, 2])] ∧
    (_set_file demoHash [("b", [1, 2])] demoMediaCap "b" true none).media.sha256
      = (_set_file demoHash [("a", [1, 2])] demoMedia "a" false none).media.sha256 :=
  C5_attach_hashes_content demoHash [("a", [1, 2])] [("b", [1, 2])]
    demoMedia demoMediaCap "a" "b" false true none none [1, 2]
    (by decide) (Or.inl rfl) (by decide) (Or.inl rfl)

/-- C9 counterexample: a failing `_set_file` (extension not a suffix of the
path) does *not* leave the object unchanged — starting from a fresh object
whose `path` is `none`, the failing call has already assigned `path` (and
`is_tmp`, `extension`). -/
theorem C9_counterexample :
    demoMedia.path = none ∧
    (_set_file demoHash [] demoMedia "a.png" false (some ".jpg")).err.isSome
      = true ∧
    (_set_file demoHash [] demoMedia "a.png" false (some ".jpg")).media.path
      = some "a.png" ∧
    (_set_file demoHash [] demoMedia "a.png" false (some ".jpg")).media.extension
      = some ".jpg" ∧
    (_set_file demoHash [] demoMedia "a.png" false (some ".jpg")).media.is_tmp
      = some false :=
  ⟨rfl, rfl, rfl, rfl, rfl⟩

/-- C9 (amended): `_set_file` with an extension that is not a suffix of the
path raises synchronously and leaves `contentHash` and `size` unset, but
`path`, `isTemporary` and `extension` have already been assigned by the
failing call; the filesystem is untouched. -/
theorem C9_invalid_extension (hash : List Nat → String) (fs : FS)
    (m : Media) (p e : String) (t : Bool)
    (hext : strEndsWith p e = false) :
    (_set_file hash fs m p t (some e)).err.isSome = true ∧
    (_set_file hash fs m p t (some e)).media.sha256 = m.sha256 ∧
    (_set_file hash fs m p t (some e)).media.size = m.size ∧
    (_set_file hash fs m p t (some e)).media.path = some p ∧
    (_set_file hash fs m p t (some e)).media.is_tmp = some t ∧
    (_set_file hash fs m p t (some e)).media.extension = some e ∧
    (_set_file hash fs m p t (some e)).fs = fs := by
  simp [_set_file, hext]

/-- Witness for C9 (amended) at a concrete mismatched extension. -/
theorem C9_invalid_extension_witness :
    (_set_file demoHash [] demoMedia "b.png" true (some ".gif")).err.isSome
      = true ∧
    (_set_file demoHash [] demoMedia "b.png" true (some ".gif")).media.sha256
      = demoMedia.sha256 ∧
    (_set_file demoHash [] demoMedia "b.png" true (some ".gif")).media.size
      = demoMedia.size ∧
    (_set_file demoHash [] demoMedia "b.png" true (some ".gif")).media.path
      = some "b.png" ∧
    (_set_file demoHash [] demoMedia "b.png" true (some ".gif")).media.is_tmp
      = some true ∧
    (_set_file demoHash [] demoMedia "b.png" true (some ".gif")).media.extension
      = some ".gif" ∧
    (_set_file demoHash [] demoMedia "b.png" true (some ".gif")).fs = [] :=
  C9_invalid_extension demoHash [] demoMedia "b.png" ".gif" true (by decide)

/-- C10: `captions` on a non-empty sequence returns the list of every
item's caption when the first item's caption is present and the
`False`-marker otherwise; on the empty sequence it fails (the unguarded
`media_items[0]` index error, modelled by `none`). -/
theorem C10_captions_shape :
    captions ([] : List Media) = none ∧
    (∀ (m : Media) (ms : List Media), m.caption.isSome = true →
      captions (m :: ms) =
        some (.caps ((m :: ms).map (fun x => x.caption)))) ∧
    (∀ (m : Media) (ms : List Media), m.caption = none →
      captions (m :: ms) = some .noCaps) := by
  refine ⟨rfl, ?_, ?_⟩ <;> intro m ms h <;> simp [captions, h]

/-- Witness for C10: a two-element list whose first caption is present, and
one whose first caption is absent. -/
theorem C10_captions_shape_witness :
    captions [demoMediaCap, demoMedia] =
      some (.caps [some "a caption", none]) ∧
    captions [demoMedia, demoMediaCap] = some .noCaps := by
  have h := C10_captions_shape
  exact ⟨h.2.1 demoMediaCap [demoMedia] rfl,
    h.2.2 demoMedia [demoMediaCap] rfl⟩

/-- C1 counterexample: an attached object bound to run 1 accepts a second
`bind_to_run` naming the distinct run 2 — the second call raises nothing
and the object ends up bound to run 2 (silent rebinding). -/
theorem C1_counterexample :
    demoBind1.err = none ∧ demoBind1.media.run = some 1 ∧
    demoBind2.err = none ∧ demoBind2.media.run = some 2 :=
  ⟨rfl, rfl, rfl, rfl⟩

/-- C1 (amended): `bind_to_run` performs no single-run-binding check: a
second call naming a different run (whose derived destination is not the
file's current path, so the copy does not hit `SameFileError`) succeeds
and silently replaces the bound run; the mismatch only surfaces later,
when `to_json` is called with the previously bound run, which fails. -/
theorem C1_rebinding_not_rejected (sysPlatform : String)
    (winValid : String → Bool) (fs : FS) (m : Media) (r2 : Run)
    (rid1 : Nat) (d1 : String) (key step : String) (id_ : Option String)
    (p sha idr ext : String) (bytes : List Nat)
    (_hbound : m.run = some rid1) (hne : rid1 ≠ r2.id)
    (hp : m.path = some p) (hsha : m.sha256 = some sha)
    (hw : ¬(sysPlatform = "Windows" ∧ winValid key = false))
    (hread : fsRead fs p = some bytes)
    (hidr : id_.getD (strTake sha 20) = idr)
    (hext : m.extension.getD (splitextExt (basename p)) = ext)
    (hnp : p ≠ joinPath r2.dir
      (joinPath m.mediaSubdir (_wb_filename key step idr ext))) :
    (bind_to_run sysPlatform winValid fs m (some r2) key step id_).err
      = none ∧
    (bind_to_run sysPlatform winValid fs m (some r2) key step id_).media.run
      = some r2.id ∧
    to_json_run
      (bind_to_run sysPlatform winValid fs m (some r2) key step id_).media
      ⟨rid1, d1⟩ =
      .error "AssertionError: media files across runs are unsupported" := by
  have hne2 : r2.id ≠ rid1 := fun hc => hne hc.symm
  cases id_ <;> cases hme : m.extension <;> rw [hme] at hext <;>
    simp only [Option.getD_none, Option.getD_some] at hidr hext <;>
    subst hidr <;> subst hext <;>
    by_cases ht : m.is_tmp = some true <;>
      simp [bind_to_run, hp, hsha, hw, hread, ht, hme, hnp, to_json_run,
        is_bound, hne2]

/-- Witness for C1 (amended): the concrete rebinding of the fixture from
run 1 to run 2, after which serialising against run 1 fails. -/
theorem C1_rebinding_not_rejected_witness :
    demoBind2.err = none ∧
    demoBind2.media.run = some ((⟨2, "/r2"⟩ : Run)).id ∧
    to_json_run demoBind2.media ⟨1, "/r1"⟩ =
      .error "AssertionError: media files across runs are unsupported" :=
  C1_rebinding_not_rejected "Linux" wvAll demoBind1.fs demoBind1.media
    ⟨2, "/r2"⟩ 1 "/r1" "k" "0" none
    "/r1/media/images/k_0_12300000000000000000.png" (demoHash [1, 2, 3])
    "12300000000000000000" ".png"
    [1, 2, 3] rfl (by decide) rfl rfl (by simp) (by decide) (by rfl)
    (by rfl) (by decide)

/-- C2: on a `bind_to_run` whose derived destination differs from the
file's current path (so the non-temporary copy does not hit
`SameFileError`), the run is notified of exactly the destination relative
path `mediaSubdir` joined with `"{key}_{step}_{id}{extension}"`, where the
id is the given one when supplied and otherwise the first 20 characters of
`contentHash`, and the extension is the explicit `extension` field when
set and otherwise the suffix of the current path; the name is a function
of those components only. -/
theorem C2_destination_name (sysPlatform : String)
    (winValid : String → Bool) (fs : FS) (m : Media) (r : Run)
    (key step : String) (id_ : Option String) (p sha idr ext : String)
    (bytes : List Nat)
    (hp : m.path = some p) (hsha : m.sha256 = some sha)
    (hw : ¬(sysPlatform = "Windows" ∧ winValid key = false))
    (hread : fsRead fs p = some bytes)
    (hidr : id_.getD (strTake sha 20) = idr)
    (hext : m.extension.getD (splitextExt (basename p)) = ext)
    (hnp : p ≠ joinPath r.dir
      (joinPath m.mediaSubdir (_wb_filename key step idr ext))) :
    (bind_to_run sysPlatform winValid fs m (some r) key step id_).err
      = none ∧
    (bind_to_run sysPlatform winValid fs m (some r) key step id_).notified
      = [joinPath m.mediaSubdir (_wb_filename key step idr ext)] := by
  cases id_ <;> cases hme : m.extension <;> rw [hme] at hext <;>
    simp only [Option.getD_none, Option.getD_some] at hidr hext <;>
    subst hidr <;> subst hext <;>
    by_cases ht : m.is_tmp = some true <;>
      simp [bind_to_run, hp, hsha, hw, hread, ht, hme, hnp]

/-- Witness for C2: the fixture binding derives
`media/images/k_0_12300000000000000000.png`. -/
theorem C2_destination_name_witness :
    (bind_to_run "Linux" wvAll demoFS demoAttached (some ⟨1, "/r1"⟩)
      "k" "0" none).err = none ∧
    (bind_to_run "Linux" wvAll demoFS demoAttached (some ⟨1, "/r1"⟩)
      "k" "0" none).notified
      = [joinPath demoAttached.mediaSubdir
          (_wb_filename "k" "0" "12300000000000000000" ".png")] :=
  C2_destination_name "Linux" wvAll demoFS demoAttached ⟨1, "/r1"⟩
    "k" "0" none "/stage/a.png" (demoHash [1, 2, 3])
    "12300000000000000000" ".png" [1, 2, 3]
    rfl rfl (by simp) (by decide) (by rfl) (by rfl) (by decide)

/-- C3 counterexample: the run descriptor of the concretely bound fixture
has no `type` field — the type tag is stored under the key `_type`. -/
theorem C3_counterexample :
    (to_json_run demoBind1.media ⟨1, "/r1"⟩).map
        (fun l => (lookupJ l "type", lookupJ l "_type"))
      = .ok (none, some (JVal.str "file")) := by
  rfl

/-- C3 (amended): for an instance bound to run `r`, `to_json` returns a
descriptor whose fields are exactly `_type: "file"`, `path`: the backing
file's path relative to `run.dir` normalised to forward slashes,
`sha256`: the content hash, and `size`, plus the optional
`artifact_path` / `_latest_artifact_path` passthrough fields when
present. -/
theorem C3_run_descriptor (m : Media) (r : Run) (p sha : String)
    (sz : Nat) (hrun : m.run = some r.id) (hp : m.path = some p)
    (hsha : m.sha256 = some sha) (hsz : m.size = some sz) :
    to_json_run m r = .ok
      ([("_type", JVal.str "file"),
        ("path", JVal.str (to_forward_slash_path (relpath p r.dir))),
        ("sha256", JVal.str sha),
        ("size", JVal.num sz)] ++
       m.artifactEntryUrl.toList.map
         (fun u => ("artifact_path", JVal.str u)) ++
       m.artifactEntryLatestUrl.toList.map
         (fun u => ("_latest_artifact_path", JVal.str u))) := by
  cases hu : m.artifactEntryUrl <;> cases hl : m.artifactEntryLatestUrl <;>
    simp [to_json_run, is_bound, hrun, hp, hsha, hsz, hu, hl, optStr,
      optNat]

/-- Witness for C3 (amended): the concrete descriptor of the bound
fixture. -/
theorem C3_run_descriptor_witness :
    to_json_run demoBind1.media ⟨1, "/r1"⟩ = .ok
      [("_type", JVal.str "file"),
       ("path", JVal.str "media/images/k_0_12300000000000000000.png"),
       ("sha256", JVal.str (demoHash [1, 2, 3])),
       ("size", JVal.num 3)] := by
  rw [C3_run_descriptor demoBind1.media ⟨1, "/r1"⟩
    "/r1/media/images/k_0_12300000000000000000.png" (demoHash [1, 2, 3]) 3
    rfl rfl rfl rfl]
  rfl

/-- C4: after a successful `bind_to_run`, the object's path is the
destination absolute path `run.dir/<relPath>` and the run was notified of
the relative path; the destination holds the file's bytes. If
`isTemporary` was true the staged file was moved (absent from the staging
path, `isTemporary` cleared to false); if it was false the file was copied
and is present at both locations. -/
theorem C4_relocation (sysPlatform : String) (winValid : String → Bool)
    (fs : FS) (m : Media) (r : Run) (key step : String)
    (id_ : Option String) (p sha idr ext np : String) (b : Bool)
    (bytes : List Nat)
    (hp : m.path = some p) (hsha : m.sha256 = some sha)
    (hw : ¬(sysPlatform = "Windows" ∧ winValid key = false))
    (hread : fsRead fs p = some bytes) (ht : m.is_tmp = some b)
    (hidr : id_.getD (strTake sha 20) = idr)
    (hext : m.extension.getD (splitextExt (basename p)) = ext)
    (hnp : np = joinPath r.dir
      (joinPath m.mediaSubdir (_wb_filename key step idr ext)))
    (hne : p ≠ np) :
    (bind_to_run sysPlatform winValid fs m (some r) key step id_).err
      = none ∧
    (bind_to_run sysPlatform winValid fs m (some r) key step id_).media.path
      = some np ∧
    (bind_to_run sysPlatform winValid fs m (some r) key step id_).notified
      = [joinPath m.mediaSubdir (_wb_filename key step idr ext)] ∧
    fsRead (bind_to_run sysPlatform winValid fs m (some r) key step id_).fs
      np = some bytes ∧
    (b = true →
      fsRead (bind_to_run sysPlatform winValid fs m (some r) key step
        id_).fs p = none ∧
      (bind_to_run sysPlatform winValid fs m (some r) key step
        id_).media.is_tmp = some false) ∧
    (b = false →
      fsRead (bind_to_run sysPlatform winValid fs m (some r) key step
        id_).fs p = some bytes ∧
      (bind_to_run sysPlatform winValid fs m (some r) key step
        id_).media.is_tmp = some false) := by
  subst hnp
  cases id_ <;> cases hme : m.extension <;> rw [hme] at hext <;>
    simp only [Option.getD_none, Option.getD_some] at hidr hext <;>
    subst hidr <;> subst hext <;> cases b <;>
      simp [bind_to_run, hp, hsha, hw, hread, ht, hme, hne,
        fsRead_fsWrite_same, fsRead_fsWrite_ne _ _ _ _ hne,
        fsRead_fsRemove]

/-- Witness for C4: binding a temporary staged copy of the fixture moves
it into the run tree. -/
theorem C4_relocation_witness :
    (bind_to_run "Linux" wvAll [("/tmpstage/x.png", [7, 7])]
      { demoMedia with
          path := some "/tmpstage/x.png"
          is_tmp := some true
          sha256 := some (demoHash [7, 7])
          size := some 2 }
      (some ⟨3, "/r3"⟩) "k" "0" none).err = none ∧
    (bind_to_run "Linux" wvAll [("/tmpstage/x.png", [7, 7])]
      { demoMedia with
          path := some "/tmpstage/x.png"
          is_tmp := some true
          sha256 := some (demoHash [7, 7])
          size := some 2 }
      (some ⟨3, "/r3"⟩) "k" "0" none).media.path
      = some "/r3/media/images/k_0_77000000000000000000.png" ∧
    (bind_to_run "Linux" wvAll [("/tmpstage/x.png", [7, 7])]
      { demoMedia with
          path := some "/tmpstage/x.png"
          is_tmp := some true
          sha256 := some (demoHash [7, 7])
          size := some 2 }
      (some ⟨3, "/r3"⟩) "k" "0" none).notified
      = ["media/images/k_0_77000000000000000000.png"] ∧
    fsRead (bind_to_run "Linux" wvAll [("/tmpstage/x.png", [7, 7])]
      { demoMedia with
          path := some "/tmpstage/x.png"
          is_tmp := some true
          sha256 := some (demoHash [7, 7])
          size := some 2 }
      (some ⟨3, "/r3"⟩) "k" "0" none).fs
      "/r3/media/images/k_0_77000000000000000000.png" = some [7, 7] ∧
    fsRead (bind_to_run "Linux" wvAll [("/tmpstage/x.png", [7, 7])]
      { demoMedia with
          path := some "/tmpstage/x.png"
          is_tmp := some true
          sha256 := some (demoHash [7, 7])
          size := some 2 }
      (some ⟨3, "/r3"⟩) "k" "0" none).fs "/tmpstage/x.png" = none ∧
    (bind_to_run "Linux" wvAll [("/tmpstage/x.png", [7, 7])]
      { demoMedia with
          path := some "/tmpstage/x.png"
          is_tmp := some true
          sha256 := some (demoHash [7, 7])
          size := some 2 }
      (some ⟨3, "/r3"⟩) "k" "0" none).media.is_tmp = some false := by
  have h := C4_relocation "Linux" wvAll [("/tmpstage/x.png", [7, 7])]
    { demoMedia with
        path := some "/tmpstage/x.png"
        is_tmp := some true
        sha256 := some (demoHash [7, 7])
        size := some 2 }
    ⟨3, "/r3"⟩ "k" "0" none "/tmpstage/x.png" (demoHash [7, 7])
    "77000000000000000000" ".png"
    "/r3/media/images/k_0_77000000000000000000.png" true [7, 7]
    rfl rfl (by simp) (by decide) rfl (by rfl) (by rfl) (by rfl)
    (by decide)
  exact ⟨h.1, h.2.1, h.2.2.1, h.2.2.2.1, (h.2.2.2.2.1 rfl).1,
    (h.2.2.2.2.1 rfl).2⟩

/-- C6: two objects are equal iff they are of the same concrete kind and
both carry a computed `contentHash` and the hashes coincide; equality
ignores caption and path; a differing (or absent) hash rules equality out,
and an object with no hash attribute is equal to nothing — not even to
itself; attaching the same bytes always produces equal objects of the same
kind, attaching bytes with different digests never does. -/
theorem C6_content_equality :
    (∀ a b : Media, mediaEq a b = true ↔
      (a.kind = b.kind ∧ ∃ h, a.sha256 = some h ∧ b.sha256 = some h)) ∧
    (∀ (a b : Media) (c1 c2 p1 p2 : Option String),
      mediaEq { a with caption := c1, path := p1 }
        { b with caption := c2, path := p2 } = mediaEq a b) ∧
    (∀ a b : Media, a.sha256 = none →
      mediaEq a b = false ∧ mediaEq b a = false) ∧
    (∀ (hash : List Nat → String) (fs1 fs2 : FS) (m1 m2 : Media)
      (p1 p2 : String) (t1 t2 : Bool) (bytes1 bytes2 : List Nat),
      m1.kind = m2.kind →
      fsRead fs1 p1 = some bytes1 → fsRead fs2 p2 = some bytes2 →
      mediaEq (_set_file hash fs1 m1 p1 t1 none).media
          (_set_file hash fs2 m2 p2 t2 none).media
        = (hash bytes1 == hash bytes2)) := by
  refine ⟨?_, ?_, ?_, ?_⟩
  · intro a b
    cases ha : a.sha256 <;> cases hb : b.sha256 <;>
      simp [mediaEq, ha, hb]
    exact fun _ => eq_comm
  · intro a b c1 c2 p1 p2
    simp [mediaEq]
  · intro a b h
    simp [mediaEq, h]
  · intro hash fs1 fs2 m1 m2 p1 p2 t1 t2 bytes1 bytes2 hk h1 h2
    rw [set_file_ok hash fs1 m1 p1 t1 none bytes1 h1 (Or.inl rfl),
      set_file_ok hash fs2 m2 p2 t2 none bytes2 h2 (Or.inl rfl)]
    by_cases he : hash bytes1 = hash bytes2 <;> simp [mediaEq, hk, he]

/-- Witness for C6: two attaches of the same bytes into objects differing
in caption are equal; and an object whose hash was never computed is not
equal to itself. -/
theorem C6_content_equality_witness :
    mediaEq (_set_file demoHash [("a", [5])] demoMedia "a" false none).media
        (_set_file demoHash [("b", [5])] demoMediaCap "b" true none).media
      = (demoHash [5] == demoHash [5]) ∧
    (mediaEq demoMedia demoMedia = false ∧
      mediaEq demoMedia demoMedia = false) := by
  have h := C6_content_equality
  exact ⟨h.2.2.2 demoHash [("a", [5])] [("b", [5])] demoMedia demoMediaCap
      "a" "b" false true [5] [5] rfl (by decide) (by decide),
    h.2.2.1 demoMedia demoMedia rfl⟩

/-- C8 counterexample: for an attached instance carrying an artifact
source, the first `to_json` adds a reference without registering the local
path in the dedup table, so the second call finds nothing to reuse and
adds the reference a second time — the artifact is mutated again (the
resolved name does coincide, being re-derived deterministically). -/
theorem C8_counterexample :
    get_added_local_path_name (to_json_artifact prNone demoMediaSrc {}).2
      "/artroot/img.png" = none ∧
    (to_json_artifact prNone demoMediaSrc {}).2.refs.length = 1 ∧
    (to_json_artifact prNone demoMediaSrc
      (to_json_artifact prNone demoMediaSrc {}).2).2.refs.length = 2 ∧
    lookupJ (to_json_artifact prNone demoMediaSrc
        (to_json_artifact prNone demoMediaSrc {}).2).1 "path"
      = lookupJ (to_json_artifact prNone demoMediaSrc {}).1 "path" :=
  ⟨rfl, rfl, rfl, rfl⟩

/-- C8 (amended): for an attached instance with no artifact source whose
path is not an external `Audio` reference, serialising into the same
artifact twice resolves the same name both times — the second call finds
the path in the artifact's dedup table (registered by the first call's
`add_file`) and adds nothing further, leaving the artifact unchanged. In
the excluded reference branches nothing registers the local path, so a
second call re-adds the reference. -/
theorem C8_artifact_dedup (pr : String → Bool) (m : Media) (art : Artifact)
    (p sha : String)
    (hp : m.path = some p) (hsha : m.sha256 = some sha)
    (hsrc : m.artifactSource = none) (haud : m.isAudio = false) :
    lookupJ (to_json_artifact pr m (to_json_artifact pr m art).2).1 "path"
      = lookupJ (to_json_artifact pr m art).1 "path" ∧
    (to_json_artifact pr m (to_json_artifact pr m art).2).2
      = (to_json_artifact pr m art).2 := by
  cases hd : get_added_local_path_name art p with
  | some n =>
    constructor <;> simp [to_json_artifact, hp, hsha, hd]
  | none =>
    have hadd : ∀ (nm : String) (tb : Bool),
        get_added_local_path_name (add_file art p nm tb).2 p = some nm :=
      fun nm tb => get_added_after_add_file art p nm tb hd
    by_cases htmp : m.is_tmp = some true <;>
      constructor <;>
        simp [to_json_artifact, hp, hsha, hd, hsrc, haud, htmp, hadd,
          add_file_fst, lookupJ]

/-- Witness for C8: serialising the non-temporary fixture twice into an
empty artifact. -/
theorem C8_artifact_dedup_witness :
    lookupJ (to_json_artifact prNone demoAtt7a
        (to_json_artifact prNone demoAtt7a {}).2).1 "path"
      = lookupJ (to_json_artifact prNone demoAtt7a {}).1 "path" ∧
    (to_json_artifact prNone demoAtt7a
        (to_json_artifact prNone demoAtt7a {}).2).2
      = (to_json_artifact prNone demoAtt7a {}).2 :=
  C8_artifact_dedup prNone demoAtt7a {} "/data/img.png" (demoHash [1])
    rfl rfl rfl rfl

/-- `basenameAux` never emits a slash when the accumulator has none. -/
theorem basenameAux_noslash :
    ∀ (cs acc : List Char), '/' ∉ acc → '/' ∉ basenameAux cs acc := by
  intro cs
  induction cs with
  | nil =>
    intro acc h
    simpa [basenameAux] using fun hx => h (List.mem_reverse.mp hx)
  | cons c rest ih =>
    intro acc h
    by_cases hc : c = '/'
    · simpa [basenameAux, hc] using ih [] (by simp)
    · have hmem : '/' ∉ c :: acc := by
        intro hx
        rcases List.mem_cons.mp hx with hx | hx
        · exact hc hx.symm
        · exact h hx
      simpa [basenameAux, hc] using ih (c :: acc) hmem

/-- The basename of a path contains no slash. -/
theorem basename_noslash (p : String) : '/' ∉ (basename p).data :=
  basenameAux_noslash p.toList [] (by simp)

/-- `getLast?` of an append with a non-empty right part. -/
theorem getLast?_append_right (l1 l2 : List Char) (h : l2 ≠ []) :
    (l1 ++ l2).getLast? = l2.getLast? := by
  rw [List.getLast?_append]
  cases l2 with
  | nil => exact absurd rfl h
  | cons a t => simp [List.getLast?_cons]

/-- A string with empty character data is the empty string. -/
theorem data_ne_nil_of_ne_empty (s : String) (h : s ≠ "") : s.data ≠ [] :=
  fun hc => h (String.ext hc)

/-- `<subdir>/<hash20>/<basename>` via `os.path.join` is plain
slash-separated concatenation under the evident shape conditions. -/
theorem artifact_name_canonical (sd tk b : String)
    (hsd : sd ≠ "") (hsdl : sd.data.getLast? ≠ some '/')
    (htk : tk ≠ "") (htkn : '/' ∉ tk.data)
    (hbh : b.data.head? ≠ some '/') :
    joinPath (joinPath sd tk) b = sd ++ "/" ++ tk ++ "/" ++ b := by
  have hs : ("/" : String).data = ['/'] := rfl
  have h1 : joinPath sd tk = sd ++ "/" ++ tk :=
    joinPath_eq_append sd tk hsd hsdl (head?_ne_of_not_mem htkn)
  have hdata : (sd ++ "/" ++ tk).data = sd.data ++ '/' :: tk.data := by
    simp [String.data_append, hs]
  have h2 : (sd ++ "/" ++ tk) ≠ "" := by
    intro hc
    have hd := congrArg String.data hc
    rw [hdata] at hd
    simp at hd
  have htkd : tk.data ≠ [] := data_ne_nil_of_ne_empty tk htk
  have h3 : (sd ++ "/" ++ tk).data.getLast? ≠ some '/' := by
    rw [hdata,
      show sd.data ++ '/' :: tk.data = (sd.data ++ ['/']) ++ tk.data by
        simp,
      getLast?_append_right _ _ htkd]
    exact getLast?_ne_of_not_mem htkn
  rw [h1, joinPath_eq_append _ _ h2 h3 hbh]

/-- Canonical artifact names differing only in a same-length middle
segment are distinct when the segments are. -/
theorem canonical_name_ne (sd t1 t2 b : String)
    (hlen : t1.data.length = t2.data.length) (hne : t1 ≠ t2) :
    sd ++ "/" ++ t1 ++ "/" ++ b ≠ sd ++ "/" ++ t2 ++ "/" ++ b := by
  intro hc
  apply hne
  have hd := congrArg String.data hc
  simp only [String.data_append, List.append_assoc] at hd
  have hd2 := List.append_cancel_left hd
  have hd3 := List.append_cancel_left hd2
  exact String.ext (List.append_inj_left hd3 hlen)

/-- C7: for an attached, non-temporary object with no dedup entry and no
artifact source, `to_json` derives the artifact name
`mediaSubdir ++ "/" ++ sha256[:20] ++ "/" ++ basename(path)`; two such
files sharing a basename but with different hash prefixes receive
distinct names that differ only in the hash-prefix segment. -/
theorem C7_artifact_hash_names (pr : String → Bool) (m1 m2 : Media)
    (art1 art2 : Artifact) (p1 p2 sha1 sha2 : String)
    (h1p : m1.path = some p1) (h1s : m1.sha256 = some sha1)
    (h1t : m1.is_tmp = some false)
    (h1d : get_added_local_path_name art1 p1 = none)
    (h1src : m1.artifactSource = none) (h1a : m1.isAudio = false)
    (h2p : m2.path = some p2) (h2s : m2.sha256 = some sha2)
    (h2t : m2.is_tmp = some false)
    (h2d : get_added_local_path_name art2 p2 = none)
    (h2src : m2.artifactSource = none) (h2a : m2.isAudio = false)
    (hsub : m2.mediaSubdir = m1.mediaSubdir)
    (hsd : m1.mediaSubdir ≠ "")
    (hsdl : m1.mediaSubdir.data.getLast? ≠ some '/')
    (ht1n : '/' ∉ (strTake sha1 20).data) (ht1e : strTake sha1 20 ≠ "")
    (ht2n : '/' ∉ (strTake sha2 20).data) (ht2e : strTake sha2 20 ≠ "")
    (hlen : (strTake sha1 20).data.length = (strTake sha2 20).data.length)
    (hpre : strTake sha1 20 ≠ strTake sha2 20)
    (hbase : basename p2 = basename p1) :
    lookupJ (to_json_artifact pr m1 art1).1 "path"
      = some (.str (m1.mediaSubdir ++ "/" ++ strTake sha1 20 ++ "/" ++
          basename p1)) ∧
    lookupJ (to_json_artifact pr m2 art2).1 "path"
      = some (.str (m1.mediaSubdir ++ "/" ++ strTake sha2 20 ++ "/" ++
          basename p1)) ∧
    (m1.mediaSubdir ++ "/" ++ strTake sha1 20 ++ "/" ++ basename p1) ≠
      (m1.mediaSubdir ++ "/" ++ strTake sha2 20 ++ "/" ++ basename p1) := by
  have hb1 : (basename p1).data.head? ≠ some '/' :=
    head?_ne_of_not_mem (basename_noslash p1)
  have hcan1 : joinPath (joinPath m1.mediaSubdir (strTake sha1 20))
      (basename p1)
      = m1.mediaSubdir ++ "/" ++ strTake sha1 20 ++ "/" ++ basename p1 :=
    artifact_name_canonical _ _ _ hsd hsdl ht1e ht1n hb1
  have hcan2 : joinPath (joinPath m2.mediaSubdir (strTake sha2 20))
      (basename p2)
      = m1.mediaSubdir ++ "/" ++ strTake sha2 20 ++ "/" ++ basename p1 := by
    rw [hsub, hbase]
    exact artifact_name_canonical _ _ _ hsd hsdl ht2e ht2n hb1
  have h1f : ¬ m1.is_tmp = some true := by simp [h1t]
  have h2f : ¬ m2.is_tmp = some true := by simp [h2t]
  refine ⟨?_, ?_, canonical_name_ne _ _ _ _ hlen hpre⟩
  · simp [to_json_artifact, h1p, h1s, h1d, h1src, h1a, h1f, add_file_fst,
      lookupJ, hcan1]
  · simp [to_json_artifact, h2p, h2s, h2d, h2src, h2a, h2f, add_file_fst,
      lookupJ, hcan2]

/-- Witness for C7: the two fixture files both named `img.png` with bytes
`[1]` and `[2]` resolve to names differing exactly in the 20-character
hash prefix. -/
theorem C7_artifact_hash_names_witness :
    lookupJ (to_json_artifact prNone demoAtt7a {}).1 "path"
      = some (.str ("media/images" ++ "/" ++
          strTake (demoHash [1]) 20 ++ "/" ++ basename "/data/img.png")) ∧
    lookupJ (to_json_artifact prNone demoAtt7b {}).1 "path"
      = some (.str ("media/images" ++ "/" ++
          strTake (demoHash [2]) 20 ++ "/" ++ basename "/data/img.png")) ∧
    ("media/images" ++ "/" ++ strTake (demoHash [1]) 20 ++ "/" ++
        basename "/data/img.png") ≠
      ("media/images" ++ "/" ++ strTake (demoHash [2]) 20 ++ "/" ++
        basename "/data/img.png") := by
  have h := C7_artifact_hash_names prNone demoAtt7a demoAtt7b {} {}
    "/data/img.png" "/other/img.png" (demoHash [1]) (demoHash [2])
    rfl rfl rfl rfl rfl rfl rfl rfl rfl rfl rfl rfl rfl
    (by decide) (by decide) (by decide) (by decide) (by decide)
    (by decide) (by decide) (by decide) (by decide)
  exact h
